import Mathlib

/-!
Verification of the color-blindness simulator (Brettel–Viénot–Mollon
algorithm, `src/color-blindness-simulator.ts`).

The JavaScript number semantics is embedded shallowly: finite values are
exact rationals and the IEEE special values NaN, +Infinity and -Infinity
are explicit constructors of `JSNum`.  Arithmetic on finite values is
exact rational arithmetic (no rounding of intermediate results, no
overflow to infinity); the special-value propagation rules follow the
ECMAScript specification.  `Math.pow` on a positive finite base and a
finite non-zero exponent is transcendental; the pipeline is therefore
parameterised by an oracle `fn : ℚ → ℚ → ℚ` standing for that case, while
all special cases of `Math.pow` (NaN or infinite operands, zero exponent,
zero or negative base) are modelled structurally in `liftPow`.
-/

set_option maxRecDepth 16000

namespace CB

/-- A JavaScript number: an exact rational, or one of the special values. -/
inductive JSNum where
  | fin (q : ℚ)
  | nan
  | inf
  | ninf
deriving DecidableEq

/-- Shorthand to embed a rational as a JS number. -/
def jq (q : ℚ) : JSNum := JSNum.fin q

/-- JS addition. -/
def jsAdd : JSNum → JSNum → JSNum
  | .nan, _ => .nan
  | _, .nan => .nan
  | .fin a, .fin b => .fin (a + b)
  | .inf, .ninf => .nan
  | .ninf, .inf => .nan
  | .inf, _ => .inf
  | _, .inf => .inf
  | .ninf, _ => .ninf
  | _, .ninf => .ninf

/-- JS negation. -/
def jsNeg : JSNum → JSNum
  | .fin a => .fin (-a)
  | .nan => .nan
  | .inf => .ninf
  | .ninf => .inf

/-- JS subtraction (`a - b = a + (-b)` in IEEE arithmetic). -/
def jsSub (a b : JSNum) : JSNum := jsAdd a (jsNeg b)

/-- JS multiplication. -/
def jsMul : JSNum → JSNum → JSNum
  | .nan, _ => .nan
  | _, .nan => .nan
  | .fin a, .fin b => .fin (a * b)
  | .inf, .inf => .inf
  | .inf, .ninf => .ninf
  | .ninf, .inf => .ninf
  | .ninf, .ninf => .inf
  | .inf, .fin b => if 0 < b then .inf else if b < 0 then .ninf else .nan
  | .fin a, .inf => if 0 < a then .inf else if a < 0 then .ninf else .nan
  | .ninf, .fin b => if 0 < b then .ninf else if b < 0 then .inf else .nan
  | .fin a, .ninf => if 0 < a then .ninf else if a < 0 then .inf else .nan

/-- JS division (division by zero yields a signed infinity or NaN; there is
no negative zero in this model, so a zero divisor behaves as `+0`). -/
def jsDiv : JSNum → JSNum → JSNum
  | .nan, _ => .nan
  | _, .nan => .nan
  | .fin a, .fin b =>
      if b = 0 then (if 0 < a then .inf else if a < 0 then .ninf else .nan)
      else .fin (a / b)
  | .fin _, .inf => .fin 0
  | .fin _, .ninf => .fin 0
  | .inf, .fin b => if b < 0 then .ninf else .inf
  | .ninf, .fin b => if b < 0 then .inf else .ninf
  | .inf, .inf => .nan
  | .inf, .ninf => .nan
  | .ninf, .inf => .nan
  | .ninf, .ninf => .nan

instance : Add JSNum := ⟨jsAdd⟩
instance : Sub JSNum := ⟨jsSub⟩
instance : Mul JSNum := ⟨jsMul⟩
instance : Div JSNum := ⟨jsDiv⟩
instance : Neg JSNum := ⟨jsNeg⟩

/-- JS `<` (false whenever an operand is NaN). -/
def jsLt : JSNum → JSNum → Bool
  | .nan, _ => false
  | _, .nan => false
  | .fin a, .fin b => decide (a < b)
  | .ninf, .ninf => false
  | .ninf, _ => true
  | _, .ninf => false
  | .inf, _ => false
  | _, .inf => true

/-- JS `<=` (false whenever an operand is NaN). -/
def jsLe : JSNum → JSNum → Bool
  | .nan, _ => false
  | _, .nan => false
  | .fin a, .fin b => decide (a ≤ b)
  | .ninf, _ => true
  | _, .ninf => false
  | _, .inf => true
  | .inf, _ => false

/-- JS `>`. -/
def jsGt (a b : JSNum) : Bool := jsLt b a

/-- JS `>=`. -/
def jsGe (a b : JSNum) : Bool := jsLe b a

/-- Models `Math.min` of two values (NaN-propagating). -/
def jsMin : JSNum → JSNum → JSNum
  | .nan, _ => .nan
  | _, .nan => .nan
  | .ninf, _ => .ninf
  | _, .ninf => .ninf
  | .inf, y => y
  | x, .inf => x
  | .fin a, .fin b => .fin (min a b)

/-- Models `Math.max` of two values (NaN-propagating). -/
def jsMax : JSNum → JSNum → JSNum
  | .nan, _ => .nan
  | _, .nan => .nan
  | .inf, _ => .inf
  | _, .inf => .inf
  | .ninf, y => y
  | x, .ninf => x
  | .fin a, .fin b => .fin (max a b)

/-- Models `Math.round` on a rational: round half toward positive infinity. -/
def jsRoundQ (q : ℚ) : ℤ := ⌊q + 1 / 2⌋

/-- Models `Math.round`. -/
def jsRound : JSNum → JSNum
  | .fin q => .fin (jsRoundQ q)
  | .nan => .nan
  | .inf => .inf
  | .ninf => .ninf

/-- Models `x || 0`: the JS falsy values among numbers are NaN and zero. -/
def jsOr0 : JSNum → JSNum
  | .nan => .fin 0
  | .fin q => if q = 0 then .fin 0 else .fin q
  | x => x

/-- Is a rational an odd integer? (for the negative-base cases of pow). -/
def oddInt (e : ℚ) : Bool := e.den = 1 && ¬ (2 ∣ e.num)

/-- Models `Math.pow` following the ECMAScript special-case table; `fn` is the
oracle for a positive finite base and finite non-zero exponent. -/
def liftPow (fn : ℚ → ℚ → ℚ) : JSNum → JSNum → JSNum
  | _, .nan => .nan
  | x, .inf =>
      match x with
      | .nan => .nan
      | .inf => .inf
      | .ninf => .inf
      | .fin b => if b = 1 ∨ b = -1 then .nan else if 1 < |b| then .inf else .fin 0
  | x, .ninf =>
      match x with
      | .nan => .nan
      | .inf => .fin 0
      | .ninf => .fin 0
      | .fin b => if b = 1 ∨ b = -1 then .nan else if 1 < |b| then .fin 0 else .inf
  | x, .fin e =>
      if e = 0 then .fin 1
      else
        match x with
        | .nan => .nan
        | .inf => if 0 < e then .inf else .fin 0
        | .ninf =>
            if 0 < e then (if oddInt e then .ninf else .inf)
            else .fin 0
        | .fin b =>
            if b = 0 then (if 0 < e then .fin 0 else .inf)
            else if 0 < b then .fin (fn b e)
            else if e.den = 1 then
              (if 2 ∣ e.num then .fin (fn (-b) e) else .fin (-(fn (-b) e)))
            else .nan

/-! ## Data model (`src/types.ts`) -/

/-- RGB color record; channels are JS numbers (semantically 0–255). -/
structure RGBColor where
  R : JSNum
  G : JSNum
  B : JSNum
deriving DecidableEq

/-- CIE XYZ color. -/
structure XYZColor where
  X : JSNum
  Y : JSNum
  Z : JSNum
deriving DecidableEq

/-- CIE xyY chromaticity coordinates. -/
structure ChromaticityCoordinates where
  x : JSNum
  y : JSNum
  Y : JSNum
deriving DecidableEq

/-- The eight supported deficiency kinds. -/
inductive ColorBlindnessType where
  | protanopia
  | protanomaly
  | deuteranopia
  | deuteranomaly
  | tritanopia
  | tritanomaly
  | achromatopsia
  | achromatomaly
deriving DecidableEq

/-- The TS enum's string value of each kind. -/
def typeValue : ColorBlindnessType → String
  | .protanopia => "protanopia"
  | .protanomaly => "protanomaly"
  | .deuteranopia => "deuteranopia"
  | .deuteranomaly => "deuteranomaly"
  | .tritanopia => "tritanopia"
  | .tritanomaly => "tritanomaly"
  | .achromatopsia => "achromatopsia"
  | .achromatomaly => "achromatomaly"

/-- Confusion point and color-axis line of one deficiency family. -/
structure BlindnessConfiguration where
  x : ℚ
  y : ℚ
  m : ℚ
  yi : ℚ

/-- Color profile option. -/
inductive ColorProfile where
  | sRGB
  | generic
deriving DecidableEq

/-- Simulation options; the optional fields model the TS optional
properties, merged with `DEFAULT_OPTIONS` inside `simulate`. -/
structure SimulationOptions where
  type : ColorBlindnessType
  anomalize : Option Bool
  colorProfile : Option ColorProfile
  gammaCorrection : Option ℚ

/-- The color profile after merging with the defaults. -/
def fullProfile (o : SimulationOptions) : ColorProfile := o.colorProfile.getD .sRGB

/-- The gamma-correction exponent after merging with the defaults (2.2). -/
def fullGamma (o : SimulationOptions) : ℚ := o.gammaCorrection.getD (2.2 : ℚ)

/-- Accepted input formats: hex string, channel array, or RGB record. -/
inductive ColorInput where
  | str (s : String)
  | arr (l : List JSNum)
  | obj (c : RGBColor)

/-! ## Transformation matrices and configurations -/

/-- The matrix `COLOR_MATRICES.RGB_TO_XYZ` (flat, indexed exactly as the source). -/
def RGB_TO_XYZ : List ℚ :=
  [0.41242371206635076, 0.21265606784927693, 0.019331987577444885,
   0.3575793401363035, 0.715157818248362, 0.11919267420354762,
   0.1804662232369621, 0.0721864539171564, 0.9504491124870351]

/-- The matrix `COLOR_MATRICES.XYZ_TO_RGB`. -/
def XYZ_TO_RGB : List ℚ :=
  [3.240712470389558, -0.969259258688888, 0.05563600315398933,
   -1.5372626602963142, 1.875996969313966, -0.2039948802843549,
   -0.49857440415943116, 0.041556132211625726, 1.0570636917433989]

/-- Matrix element access (`matrix[i]`). -/
def mEl (l : List ℚ) (i : ℕ) : ℚ := l.getD i 0

/-- Keys of the `BLINDNESS_CONFIGURATIONS` record. -/
inductive ConfigKey where
  | protan
  | deutan
  | tritan
  | custom
deriving DecidableEq

/-- The `BLINDNESS_CONFIGURATIONS` table. -/
def blindnessConfig : ConfigKey → BlindnessConfiguration
  | .protan => ⟨0.7465, 0.2535, 1.273463, -0.073894⟩
  | .deutan => ⟨1.02274, -0.02274, 0.968437, 0.003331⟩
  | .tritan => ⟨0.1748, 0, 0.062921, 0.292119⟩
  | .custom => ⟨0.735, 0.265, -1.059259, 1.026914⟩

/-- Models `String.prototype.startsWith` (on the character lists). -/
def strStartsWith (s pre : String) : Bool := pre.data.isPrefixOf s.data

/-- The `configKey` dispatch in `simulate`: prefix matching on the kind's
string value, with `custom` as the fallback. -/
def configKeyFor (t : String) : ConfigKey :=
  if strStartsWith t "protan" then .protan
  else if strStartsWith t "deutan" then .deutan
  else if strStartsWith t "tritan" then .tritan
  else .custom

/-! ## Color-space conversions -/

/-- The function `convertRgbToXyz`: normalize to [0,1], gamma-decode, matrix multiply. -/
def convertRgbToXyz (fn : ℚ → ℚ → ℚ) (rgb : RGBColor)
    (profile : ColorProfile) (gamma : ℚ) : XYZColor :=
  let r0 := rgb.R / jq 255
  let g0 := rgb.G / jq 255
  let b0 := rgb.B / jq 255
  let dec := fun (v : JSNum) =>
    match profile with
    | .sRGB =>
        if jsGt v (jq 0.04045) then
          liftPow fn ((v + jq 0.055) / jq 1.055) (jq 2.4)
        else v / jq 12.92
    | .generic => liftPow fn v (jq gamma)
  let r := dec r0
  let g := dec g0
  let b := dec b0
  ⟨r * jq (mEl RGB_TO_XYZ 0) + g * jq (mEl RGB_TO_XYZ 3) + b * jq (mEl RGB_TO_XYZ 6),
   r * jq (mEl RGB_TO_XYZ 1) + g * jq (mEl RGB_TO_XYZ 4) + b * jq (mEl RGB_TO_XYZ 7),
   r * jq (mEl RGB_TO_XYZ 2) + g * jq (mEl RGB_TO_XYZ 5) + b * jq (mEl RGB_TO_XYZ 8)⟩

/-- The function `convertXyzToXyy`: sum-normalized chromaticity, with the zero-sum
branch returning `{ x: 0, y: 0, Y: xyz.Y }`. -/
def convertXyzToXyy (xyz : XYZColor) : ChromaticityCoordinates :=
  let sum := xyz.X + xyz.Y + xyz.Z
  if sum = jq 0 then ⟨jq 0, jq 0, xyz.Y⟩
  else ⟨xyz.X / sum, xyz.Y / sum, xyz.Y⟩

/-- The per-channel inverse gamma correction with clamping in
`convertXyzToRgb`. -/
def gammaEncode (fn : ℚ → ℚ → ℚ) (v : JSNum)
    (profile : ColorProfile) (gamma : ℚ) : JSNum :=
  if jsLe v (jq 0) then jq 0
  else if jsGe v (jq 1) then jq 1
  else
    match profile with
    | .sRGB =>
        if jsLe v (jq 0.0031308) then jq 12.92 * v
        else jq 1.055 * liftPow fn v (jq (1 / 2.4)) - jq 0.055
    | .generic => liftPow fn v (jsDiv (jq 1) (jq gamma))

/-- The function `convertXyzToRgb`: XYZ to linear RGB, inverse gamma, scale to 0–255
and round. -/
def convertXyzToRgb (fn : ℚ → ℚ → ℚ) (xyz : XYZColor)
    (profile : ColorProfile) (gamma : ℚ) : RGBColor :=
  let r := xyz.X * jq (mEl XYZ_TO_RGB 0) + xyz.Y * jq (mEl XYZ_TO_RGB 3) +
           xyz.Z * jq (mEl XYZ_TO_RGB 6)
  let g := xyz.X * jq (mEl XYZ_TO_RGB 1) + xyz.Y * jq (mEl XYZ_TO_RGB 4) +
           xyz.Z * jq (mEl XYZ_TO_RGB 7)
  let b := xyz.X * jq (mEl XYZ_TO_RGB 2) + xyz.Y * jq (mEl XYZ_TO_RGB 5) +
           xyz.Z * jq (mEl XYZ_TO_RGB 8)
  ⟨jsRound (gammaEncode fn r profile gamma * jq 255),
   jsRound (gammaEncode fn g profile gamma * jq 255),
   jsRound (gammaEncode fn b profile gamma * jq 255)⟩

/-- The function `convertLinearRgbToXyz`. -/
def convertLinearRgbToXyz (r g b : JSNum) : XYZColor :=
  ⟨r * jq (mEl RGB_TO_XYZ 0) + g * jq (mEl RGB_TO_XYZ 3) + b * jq (mEl RGB_TO_XYZ 6),
   r * jq (mEl RGB_TO_XYZ 1) + g * jq (mEl RGB_TO_XYZ 4) + b * jq (mEl RGB_TO_XYZ 7),
   r * jq (mEl RGB_TO_XYZ 2) + g * jq (mEl RGB_TO_XYZ 5) + b * jq (mEl RGB_TO_XYZ 8)⟩

/-! ## Simulation steps -/

/-- The function `simulateAchromatopsia`: luminance-weighted grayscale, optionally
blended with the original for achromatomaly. -/
def simulateAchromatopsia (rgb : RGBColor) (anomalize : Bool) : RGBColor :=
  let luminance := rgb.R * jq 0.212656 + rgb.G * jq 0.715158 + rgb.B * jq 0.072186
  let grayscale : RGBColor := ⟨jsRound luminance, jsRound luminance, jsRound luminance⟩
  if anomalize then
    ⟨jsRound ((jq 1.75 * grayscale.R + rgb.R) / jq 2.75),
     jsRound ((jq 1.75 * grayscale.G + rgb.G) / jq 2.75),
     jsRound ((jq 1.75 * grayscale.B + rgb.B) / jq 2.75)⟩
  else grayscale

/-- The confusion-line slope of `simulateDichromacy`. -/
def confusionSlope (chroma : ChromaticityCoordinates)
    (cfg : BlindnessConfiguration) : JSNum :=
  (chroma.y - jq cfg.y) / (chroma.x - jq cfg.x)

/-- Lines 217–230 of `simulateDichromacy`: confusion-line intersection and
the XYZ reconstructed at the simulated chromaticity (luminance copied). -/
def simulatedXyzOf (chroma : ChromaticityCoordinates)
    (cfg : BlindnessConfiguration) : XYZColor :=
  let s := confusionSlope chroma cfg
  let confusionYIntercept := chroma.y - chroma.x * s
  let intersectionX := (jq cfg.yi - confusionYIntercept) / (s - jq cfg.m)
  let intersectionY := s * intersectionX + confusionYIntercept
  ⟨(intersectionX * chroma.Y) / intersectionY,
   chroma.Y,
   ((jq 1 - (intersectionX + intersectionY)) * chroma.Y) / intersectionY⟩

/-- Lines 233–270 of `simulateDichromacy`: the gamut mapping shift of the
linear RGB channels toward the neutral point. -/
def gamutMap (sim : XYZColor) (chromaY : JSNum) : JSNum × JSNum × JSNum :=
  let linearR := sim.X * jq (mEl XYZ_TO_RGB 0) + sim.Y * jq (mEl XYZ_TO_RGB 3) +
                 sim.Z * jq (mEl XYZ_TO_RGB 6)
  let linearG := sim.X * jq (mEl XYZ_TO_RGB 1) + sim.Y * jq (mEl XYZ_TO_RGB 4) +
                 sim.Z * jq (mEl XYZ_TO_RGB 7)
  let linearB := sim.X * jq (mEl XYZ_TO_RGB 2) + sim.Y * jq (mEl XYZ_TO_RGB 5) +
                 sim.Z * jq (mEl XYZ_TO_RGB 8)
  let neutralX := (jq 0.312713 * chromaY) / jq 0.329016
  let neutralZ := (jq 0.358271 * chromaY) / jq 0.329016
  let deltaX := neutralX - sim.X
  let deltaY := jq 0
  let deltaZ := neutralZ - sim.Z
  let deltaR := deltaX * jq (mEl XYZ_TO_RGB 0) + deltaY * jq (mEl XYZ_TO_RGB 3) +
                deltaZ * jq (mEl XYZ_TO_RGB 6)
  let deltaG := deltaX * jq (mEl XYZ_TO_RGB 1) + deltaY * jq (mEl XYZ_TO_RGB 4) +
                deltaZ * jq (mEl XYZ_TO_RGB 7)
  let deltaB := deltaX * jq (mEl XYZ_TO_RGB 2) + deltaY * jq (mEl XYZ_TO_RGB 5) +
                deltaZ * jq (mEl XYZ_TO_RGB 8)
  let adjustR := if deltaR ≠ jq 0 then
      ((if jsLt linearR (jq 0) then jq 0 else jq 1) - linearR) / deltaR else jq 0
  let adjustG := if deltaG ≠ jq 0 then
      ((if jsLt linearG (jq 0) then jq 0 else jq 1) - linearG) / deltaG else jq 0
  let adjustB := if deltaB ≠ jq 0 then
      ((if jsLt linearB (jq 0) then jq 0 else jq 1) - linearB) / deltaB else jq 0
  let clampedAdjustR := if jsGt adjustR (jq 1) || jsLt adjustR (jq 0) then jq 0 else adjustR
  let clampedAdjustG := if jsGt adjustG (jq 1) || jsLt adjustG (jq 0) then jq 0 else adjustG
  let clampedAdjustB := if jsGt adjustB (jq 1) || jsLt adjustB (jq 0) then jq 0 else adjustB
  let maxAdjust := jsMax (jsMax clampedAdjustR clampedAdjustG) clampedAdjustB
  (linearR + maxAdjust * deltaR, linearG + maxAdjust * deltaG, linearB + maxAdjust * deltaB)

/-- The function `simulateDichromacy`: the Brettel–Viénot–Mollon projection followed by
gamut mapping and conversion back to encoded RGB. -/
def simulateDichromacy (fn : ℚ → ℚ → ℚ) (rgb : RGBColor)
    (cfg : BlindnessConfiguration) (profile : ColorProfile) (gamma : ℚ) : RGBColor :=
  let xyz := convertRgbToXyz fn rgb profile gamma
  let chroma := convertXyzToXyy xyz
  let sim := simulatedXyzOf chroma cfg
  let mapped := gamutMap sim chroma.Y
  convertXyzToRgb fn (convertLinearRgbToXyz mapped.1 mapped.2.1 mapped.2.2) profile gamma

/-! ## Input parsing and hex formatting -/

/-- Models `input.replace` with a one-character string pattern: remove the first
occurrence only. -/
def removeFirst (c : Char) : List Char → List Char
  | [] => []
  | x :: xs => if x = c then xs else x :: removeFirst c xs

/-- Is a character a hexadecimal digit? -/
def isHexDigitChar (c : Char) : Bool :=
  (decide ('0' ≤ c) && decide (c ≤ '9')) ||
  (decide ('a' ≤ c) && decide (c ≤ 'f')) ||
  (decide ('A' ≤ c) && decide (c ≤ 'F'))

/-- Value of a hexadecimal digit. -/
def hexVal (c : Char) : ℕ :=
  if decide ('0' ≤ c) && decide (c ≤ '9') then c.toNat - '0'.toNat
  else if decide ('a' ≤ c) && decide (c ≤ 'f') then c.toNat - 'a'.toNat + 10
  else if decide ('A' ≤ c) && decide (c ≤ 'F') then c.toNat - 'A'.toNat + 10
  else 0

/-- Value of a list of hexadecimal digits. -/
def hexDigitsVal (cs : List Char) : ℕ := cs.foldl (fun acc c => 16 * acc + hexVal c) 0

/-- Models `parseInt(s, 16)`: trim whitespace, optional sign, optional `0x`
prefix, then the longest prefix of hex digits; NaN when there is none. -/
def parseIntHex (cs : List Char) : JSNum :=
  let cs1 := cs.dropWhile (fun c => c.isWhitespace)
  let signAndRest : ℤ × List Char :=
    match cs1 with
    | '-' :: rest => (-1, rest)
    | '+' :: rest => (1, rest)
    | _ => (1, cs1)
  let cs2 :=
    match signAndRest.2 with
    | '0' :: x :: rest => if x = 'x' ∨ x = 'X' then rest else '0' :: x :: rest
    | l => l
  let ds := cs2.takeWhile isHexDigitChar
  if ds.isEmpty then .nan
  else .fin ((signAndRest.1 * (hexDigitsVal ds : ℤ) : ℤ) : ℚ)

/-- The function `parseColorInput`: hex string, 3-element array, or RGB record. -/
def parseColorInput : ColorInput → Except String RGBColor
  | .str s =>
      let hex := removeFirst '#' s.data
      if hex.length ≠ 6 then .error ("Invalid hex color format: " ++ s)
      else .ok ⟨parseIntHex (hex.take 2),
                parseIntHex ((hex.drop 2).take 2),
                parseIntHex ((hex.drop 4).take 2)⟩
  | .arr l =>
      if l.length ≠ 3 then .error "RGB array must contain exactly 3 values"
      else .ok ⟨l.getD 0 (jq 0), l.getD 1 (jq 0), l.getD 2 (jq 0)⟩
  | .obj c => .ok c

/-- The value `rgbToHex` formats for one channel:
`Math.round(Math.max(0, Math.min(255, n)))`. -/
def byteOfChannel (n : JSNum) : JSNum := jsRound (jsMax (jq 0) (jsMin (jq 255) n))

/-- Models `Number.prototype.toString(16)` restricted to the values that reach it
here: NaN and (after clamping and rounding) non-negative integers, which
render as lowercase hex digits. -/
def numToHexChars : JSNum → List Char
  | .fin q => Nat.toDigits 16 q.num.toNat
  | .nan => ['N', 'a', 'N']
  | .inf => ['I', 'n', 'f', 'i', 'n', 'i', 't', 'y']
  | .ninf => ['-', 'I', 'n', 'f', 'i', 'n', 'i', 't', 'y']

/-- The helper `toHex` inside `rgbToHex`: clamp, round, render, pad to two chars. -/
def toHexChars (n : JSNum) : List Char :=
  let h := numToHexChars (byteOfChannel n)
  if h.length = 1 then '0' :: h else h

/-- Models `String.prototype.toUpperCase` on an ASCII character. -/
def jsToUpper (c : Char) : Char :=
  if decide ('a' ≤ c) && decide (c ≤ 'z') then Char.ofNat (c.toNat - 32) else c

/-- The function `rgbToHex`: `#` plus the three channel pairs, uppercased. -/
def rgbToHex (rgb : RGBColor) : String :=
  ⟨(('#' :: (toHexChars rgb.R ++ toHexChars rgb.G ++ toHexChars rgb.B)).map jsToUpper)⟩

/-! ## The orchestrator -/

/-- The final clamping of one channel in `simulate` (lines 367–369):
`Math.max(0, Math.min(255, x || 0))`. -/
def clampCh (x : JSNum) : JSNum := jsMax (jq 0) (jsMin (jq 255) (jsOr0 x))

/-- Lines 326–364 of `simulate`: dispatch on the kind, simulation, and the
anomalous blend (`simulated` just before the final clamping). -/
def simulatePre (fn : ℚ → ℚ → ℚ) (rgb : RGBColor)
    (options : SimulationOptions) : RGBColor :=
  if options.type = ColorBlindnessType.achromatopsia ∨
     options.type = ColorBlindnessType.achromatomaly then
    simulateAchromatopsia rgb (options.anomalize.getD false)
  else
    let configKey := configKeyFor (typeValue options.type)
    let configuration := blindnessConfig configKey
    let sim := simulateDichromacy fn rgb configuration (fullProfile options) (fullGamma options)
    if options.anomalize.getD false then
      ⟨(jq 1.75 * sim.R + rgb.R) / jq 2.75,
       (jq 1.75 * sim.G + rgb.G) / jq 2.75,
       (jq 1.75 * sim.B + rgb.B) / jq 2.75⟩
    else sim

/-- Lines 326–369 of `simulate`: simulation followed by the final
per-channel clamping, before hex formatting. -/
def simulateClamped (fn : ℚ → ℚ → ℚ) (rgb : RGBColor)
    (options : SimulationOptions) : RGBColor :=
  ⟨clampCh (simulatePre fn rgb options).R,
   clampCh (simulatePre fn rgb options).G,
   clampCh (simulatePre fn rgb options).B⟩

/-- The function `simulate`: parse the input, simulate, clamp and format as hex. -/
def simulate (fn : ℚ → ℚ → ℚ) (input : ColorInput)
    (options : SimulationOptions) : Except String String :=
  match parseColorInput input with
  | .error e => .error e
  | .ok rgb => .ok (rgbToHex (simulateClamped fn rgb options))

/-- The integer channel triple encoded by `simulate`'s hex output: the
clamped-and-rounded values `rgbToHex` renders. -/
def simulateBytes (fn : ℚ → ℚ → ℚ) (rgb : RGBColor)
    (options : SimulationOptions) : JSNum × JSNum × JSNum :=
  let c := simulateClamped fn rgb options
  (byteOfChannel c.R, byteOfChannel c.G, byteOfChannel c.B)

/-- The rational carried by a finite JS number (0 for the special values,
which never occur where this is used). -/
def toQ : JSNum → ℚ
  | .fin q => q
  | _ => 0

/-- Squared Euclidean RGB distance between an output byte triple and a
source color. -/
def dist2 (p : JSNum × JSNum × JSNum) (rgb : RGBColor) : ℚ :=
  (toQ p.1 - toQ rgb.R) ^ 2 + (toQ p.2.1 - toQ rgb.G) ^ 2 + (toQ p.2.2 - toQ rgb.B) ^ 2

/-- The four deficiency families: each pairs a dichromatic kind with its
anomalous-trichromatic variant. -/
inductive DeficiencyFamily where
  | protan
  | deutan
  | tritan
  | achromat
deriving DecidableEq

/-- The full ("-opia") kind of a family. -/
def opiaKind : DeficiencyFamily → ColorBlindnessType
  | .protan => .protanopia
  | .deutan => .deuteranopia
  | .tritan => .tritanopia
  | .achromat => .achromatopsia

/-- The anomalous ("-omaly") kind of a family. -/
def omalyKind : DeficiencyFamily → ColorBlindnessType
  | .protan => .protanomaly
  | .deutan => .deuteranomaly
  | .tritan => .tritanomaly
  | .achromat => .achromatomaly

/-- A fixed concrete pow oracle for closed evaluations whose control flow
never consults the oracle. -/
def fn0 : ℚ → ℚ → ℚ := fun _ _ => 0

/-- The coefficient with which the linear value of channel `j` (columns of
`RGB_TO_XYZ` start at 0, 3, 6) enters the constraint `y0 = yc + m (x0 - xc)`
placing the source chromaticity on the line of slope `m` through the protan
confusion point, i.e. making the confusion-line slope `s` equal `m`. -/
def c3coeff (j : ℕ) : ℚ :=
  mEl RGB_TO_XYZ (j + 1) - 1.273463 * mEl RGB_TO_XYZ j +
    (1.273463 * 0.7465 - 0.2535) *
      (mEl RGB_TO_XYZ j + mEl RGB_TO_XYZ (j + 1) + mEl RGB_TO_XYZ (j + 2))

/-- A blue channel value (≈ -9.61, in the linear region of the sRGB curve)
for which the color `[0, 6, c3FailB]` has confusion-line slope exactly the
protan color-axis slope `m`. -/
def c3FailB : ℚ := -6 * c3coeff 3 / c3coeff 6

/-- The degenerate source color: its protan confusion line is parallel to
the protan color axis (`s = m`). -/
def c3rgb : RGBColor := ⟨jq 0, jq 6, jq c3FailB⟩

/-- The degenerate input in array form. -/
def c3FailInput : ColorInput := .arr [jq 0, jq 6, jq c3FailB]

/-- The sixteen uppercase hexadecimal digit characters. -/
def upperHexDigits : List Char :=
  ['0', '1', '2', '3', '4', '5', '6', '7', '8', '9', 'A', 'B', 'C', 'D', 'E', 'F']

/-- The two-character (zero-padded) lowercase hex rendering of a byte value,
as produced by `toHex` for a clamped, rounded channel. -/
def hexPairN (m : ℕ) : List Char :=
  if (Nat.toDigits 16 m).length = 1 then '0' :: Nat.toDigits 16 m else Nat.toDigits 16 m

end CB

namespace CB

/-! ## Operator bridges and basic facts about the clamping chain -/

lemma add_def (a b : JSNum) : a + b = jsAdd a b := rfl

lemma sub_def (a b : JSNum) : a - b = jsSub a b := rfl

lemma mul_def (a b : JSNum) : a * b = jsMul a b := rfl

lemma div_def (a b : JSNum) : a / b = jsDiv a b := rfl

lemma neg_def (a : JSNum) : -a = jsNeg a := rfl

lemma jsOr0_fin (q : ℚ) : jsOr0 (.fin q) = .fin q := by
  simp only [jsOr0]
  split
  · rename_i h
    rw [h]
  · rfl

lemma clampCh_fin (q : ℚ) : clampCh (.fin q) = .fin (max 0 (min 255 q)) := by
  simp [clampCh, jsOr0_fin, jq, jsMin, jsMax]

lemma clampCh_mem (x : JSNum) : ∃ q : ℚ, clampCh x = .fin q ∧ 0 ≤ q ∧ q ≤ 255 := by
  cases x with
  | fin q =>
      exact ⟨max 0 (min 255 q), clampCh_fin q,
        le_max_left 0 _, max_le (by norm_num) (min_le_left 255 q)⟩
  | nan => exact ⟨0, by decide, le_refl 0, by norm_num⟩
  | inf => exact ⟨255, by decide, by norm_num, le_refl 255⟩
  | ninf => exact ⟨0, by decide, le_refl 0, by norm_num⟩

lemma jsRoundQ_intCast (n : ℤ) : jsRoundQ (n : ℚ) = n := by
  have h : ((n : ℚ) + 1 / 2) = 1 / 2 + (n : ℚ) := by ring
  simp only [jsRoundQ, h, Int.floor_add_int]
  norm_num

lemma le_jsRoundQ (z : ℤ) (q : ℚ) (h : (z : ℚ) ≤ q + 1 / 2) : z ≤ jsRoundQ q :=
  Int.le_floor.mpr h

lemma jsRoundQ_le (z : ℤ) (q : ℚ) (h : q + 1 / 2 < (z : ℚ) + 1) : jsRoundQ q ≤ z :=
  Int.floor_le_iff.mpr (by linarith)

lemma byteOfChannel_fin (q : ℚ) (h0 : 0 ≤ q) (h1 : q ≤ 255) :
    byteOfChannel (.fin q) = .fin ((jsRoundQ q : ℤ) : ℚ) := by
  simp [byteOfChannel, jq, jsMin, jsMax, min_eq_right h1, max_eq_right h0, jsRound]

/-- A clamped channel renders as an integer byte in [0, 255]. -/
lemma byte_clamp_shape (x : JSNum) :
    ∃ k : ℤ, byteOfChannel (clampCh x) = .fin (k : ℚ) ∧ 0 ≤ k ∧ k ≤ 255 := by
  obtain ⟨q, hq, h0, h1⟩ := clampCh_mem x
  refine ⟨jsRoundQ q, ?_, ?_, ?_⟩
  · rw [hq, byteOfChannel_fin q h0 h1]
  · exact le_jsRoundQ 0 q (by linarith)
  · exact jsRoundQ_le 255 q (by linarith)

/-- Every byte `simulate` renders is an integer in [0, 255]. -/
lemma simulateBytes_shape (fn : ℚ → ℚ → ℚ) (rgb : RGBColor) (opts : SimulationOptions) :
    ∃ kR kG kB : ℤ,
      simulateBytes fn rgb opts = (.fin (kR : ℚ), .fin (kG : ℚ), .fin (kB : ℚ)) ∧
      0 ≤ kR ∧ kR ≤ 255 ∧ 0 ≤ kG ∧ kG ≤ 255 ∧ 0 ≤ kB ∧ kB ≤ 255 := by
  obtain ⟨kR, hR, hR0, hR1⟩ := byte_clamp_shape (simulatePre fn rgb opts).R
  obtain ⟨kG, hG, hG0, hG1⟩ := byte_clamp_shape (simulatePre fn rgb opts).G
  obtain ⟨kB, hB, hB0, hB1⟩ := byte_clamp_shape (simulatePre fn rgb opts).B
  exact ⟨kR, kG, kB, by simp [simulateBytes, simulateClamped, hR, hG, hB],
    hR0, hR1, hG0, hG1, hB0, hB1⟩

end CB

namespace CB

/-! ## C2: luminance preservation through the dichromatic projection -/

/-- C2: for every RGB input and configuration, the XYZ color reconstructed
from the confusion-line intersection has the same `Y` component as the
source color's XYZ (the projection copies the luminance unchanged). -/
theorem c2_luminance_preserved (fn : ℚ → ℚ → ℚ) (rgb : RGBColor)
    (cfg : BlindnessConfiguration) (profile : ColorProfile) (gamma : ℚ) :
    (simulatedXyzOf (convertXyzToXyy (convertRgbToXyz fn rgb profile gamma)) cfg).Y
      = (convertRgbToXyz fn rgb profile gamma).Y := by
  have h1 : (simulatedXyzOf (convertXyzToXyy (convertRgbToXyz fn rgb profile gamma)) cfg).Y
      = (convertXyzToXyy (convertRgbToXyz fn rgb profile gamma)).Y := rfl
  rw [h1]
  simp only [convertXyzToXyy]
  split <;> rfl

/-! ## C6: the zero-sum branch of the chromaticity conversion -/

/-- C6 counterexample: an XYZ color with `X+Y+Z = 0` but `Y = 1`; the
conversion returns `Y = 1`, not `Y = 0` as claimed. -/
theorem c6_zero_sum_cx :
    (XYZColor.mk (jq 1) (jq 1) (jq (-2))).X + (XYZColor.mk (jq 1) (jq 1) (jq (-2))).Y
        + (XYZColor.mk (jq 1) (jq 1) (jq (-2))).Z = jq 0
    ∧ (convertXyzToXyy ⟨jq 1, jq 1, jq (-2)⟩).Y ≠ jq 0 := by
  constructor
  · norm_num [add_def, jsAdd, jq]
  · norm_num +decide [convertXyzToXyy, add_def, jsAdd, jq]

/-- C6 (amended): when `X+Y+Z = 0` the conversion returns `x = 0, y = 0`
and `Y` equal to the input's `Y` component unchanged (which is 0 for a
genuinely black, all-zero input). -/
theorem c6_zero_sum_amended (xyz : XYZColor)
    (h : xyz.X + xyz.Y + xyz.Z = jq 0) :
    convertXyzToXyy xyz = ⟨jq 0, jq 0, xyz.Y⟩ := by
  simp only [convertXyzToXyy]
  rw [if_pos h]

/-- C6 witness: the amended statement at pure black. -/
theorem c6_zero_sum_amended_w :
    convertXyzToXyy ⟨jq 0, jq 0, jq 0⟩ = ⟨jq 0, jq 0, (XYZColor.mk (jq 0) (jq 0) (jq 0)).Y⟩ :=
  c6_zero_sum_amended ⟨jq 0, jq 0, jq 0⟩ (by norm_num [add_def, jsAdd, jq])

/-! ## C7: middle gray is a fixed point of achromatopsia -/

/-- C7: simulating `{128,128,128}` under achromatopsia yields exactly
`{128,128,128}`, formatted as `#808080` (for every pow oracle: the
achromatic path never consults it). -/
theorem c7_gray_fixed_point (fn : ℚ → ℚ → ℚ) :
    simulate fn (.obj ⟨jq 128, jq 128, jq 128⟩) ⟨.achromatopsia, none, none, none⟩
        = .ok "#808080"
    ∧ simulateBytes fn ⟨jq 128, jq 128, jq 128⟩ ⟨.achromatopsia, none, none, none⟩
        = (jq 128, jq 128, jq 128) := by
  constructor <;>
    norm_num +decide [simulate, parseColorInput, simulateBytes, simulateClamped, simulatePre,
      simulateAchromatopsia, rgbToHex, toHexChars, numToHexChars, byteOfChannel, clampCh,
      jsOr0, jsMin, jsMax, jsRound, jsRoundQ, jq, add_def, mul_def, div_def,
      jsAdd, jsMul, jsDiv, jsToUpper, Nat.toDigits, Nat.toDigitsCore, Int.toNat]

/-! ## C9: the achromatic path ignores colorProfile and gammaCorrection -/

/-- C9: for the kinds Achromatopsia and Achromatomaly, the output of
`simulate` is independent of the colorProfile and gammaCorrection options:
runs differing only in those settings yield identical output. -/
theorem c9_achromatic_options_oblivious (fn : ℚ → ℚ → ℚ) (input : ColorInput)
    (t : ColorBlindnessType) (anml : Option Bool)
    (p1 p2 : Option ColorProfile) (g1 g2 : Option ℚ)
    (h : t = ColorBlindnessType.achromatopsia ∨ t = ColorBlindnessType.achromatomaly) :
    simulate fn input ⟨t, anml, p1, g1⟩ = simulate fn input ⟨t, anml, p2, g2⟩ := by
  have hpre : ∀ rgb, simulatePre fn rgb ⟨t, anml, p1, g1⟩ = simulatePre fn rgb ⟨t, anml, p2, g2⟩ := by
    intro rgb
    simp only [simulatePre]
    rw [if_pos h, if_pos h]
  simp only [simulate]
  cases hp : parseColorInput input with
  | error e => rfl
  | ok rgb => simp only [simulateClamped, hpre rgb]

/-- C9 witness: a concrete pair of runs with different profile and gamma. -/
theorem c9_achromatic_options_oblivious_w :
    simulate fn0 (.obj ⟨jq 1, jq 2, jq 3⟩) ⟨.achromatopsia, none, some .sRGB, none⟩
      = simulate fn0 (.obj ⟨jq 1, jq 2, jq 3⟩) ⟨.achromatopsia, none, some .generic, some 3⟩ :=
  c9_achromatic_options_oblivious fn0 (.obj ⟨jq 1, jq 2, jq 3⟩) .achromatopsia none
    (some .sRGB) (some .generic) none (some 3) (Or.inl rfl)

/-! ## C10: acceptance condition of the input parser -/

/-- C10: a string input is accepted exactly when its length after removing
one `#` is 6 (hex-digit validity is not checked: `ZZZZZZ` parses to NaN
channels), and an array input is accepted exactly when its length is 3. -/
theorem c10_parse_acceptance :
    (∀ s : String, (parseColorInput (.str s)).isOk = true ↔ (removeFirst '#' s.data).length = 6)
    ∧ (∀ l : List JSNum, (parseColorInput (.arr l)).isOk = true ↔ l.length = 3)
    ∧ parseColorInput (.str "ZZZZZZ") = .ok ⟨.nan, .nan, .nan⟩ := by
  refine ⟨?_, ?_, ?_⟩
  · intro s
    simp only [parseColorInput]
    split
    · rename_i h
      simp [Except.isOk, Except.toBool, h]
    · rename_i h
      simp only [not_not] at h
      simp [Except.isOk, Except.toBool, h]
  · intro l
    simp only [parseColorInput]
    split
    · rename_i h
      simp [Except.isOk, Except.toBool, h]
    · rename_i h
      simp only [not_not] at h
      simp [Except.isOk, Except.toBool, h]
  · rfl

/-! ## C4: the achromatic invariant R = G = B -/

/-- C4 counterexample: achromatomaly with `anomalize` set on pure red
blends the grayscale with the original per channel, so the channels of
the output differ (R = 127, G = 34). -/
theorem c4_achromatomaly_not_gray_cx :
    (simulateBytes fn0 ⟨jq 255, jq 0, jq 0⟩ ⟨.achromatomaly, some true, none, none⟩).1
      ≠ (simulateBytes fn0 ⟨jq 255, jq 0, jq 0⟩ ⟨.achromatomaly, some true, none, none⟩).2.1 := by
  norm_num +decide [simulateBytes, simulateClamped, simulatePre, simulateAchromatopsia,
    byteOfChannel, clampCh, jsOr0, jsMin, jsMax, jsRound, jsRoundQ, jq,
    add_def, mul_def, div_def, jsAdd, jsMul, jsDiv]

/-- C4 (amended): for Achromatopsia and Achromatomaly with `anomalize`
unset or false the output is the pure grayscale and R = G = B; when
`anomalize` is set the per-channel blend with the original can break the
equality. -/
theorem c4_achromatic_gray_amended (fn : ℚ → ℚ → ℚ) (rgb : RGBColor)
    (t : ColorBlindnessType) (anml : Option Bool)
    (p : Option ColorProfile) (g : Option ℚ)
    (h : t = ColorBlindnessType.achromatopsia ∨ t = ColorBlindnessType.achromatomaly)
    (ha : anml.getD false = false) :
    (simulateBytes fn rgb ⟨t, anml, p, g⟩).1 = (simulateBytes fn rgb ⟨t, anml, p, g⟩).2.1
    ∧ (simulateBytes fn rgb ⟨t, anml, p, g⟩).2.1 = (simulateBytes fn rgb ⟨t, anml, p, g⟩).2.2 := by
  have hpre : simulatePre fn rgb ⟨t, anml, p, g⟩ = simulateAchromatopsia rgb false := by
    simp only [simulatePre]
    rw [if_pos h]
    simp [ha]
  constructor <;> simp [simulateBytes, simulateClamped, hpre, simulateAchromatopsia]

/-- C4 witness: the amended statement at a concrete non-gray input. -/
theorem c4_achromatic_gray_amended_w :
    (simulateBytes fn0 ⟨jq 9, jq 18, jq 27⟩ ⟨.achromatopsia, none, none, none⟩).1
      = (simulateBytes fn0 ⟨jq 9, jq 18, jq 27⟩ ⟨.achromatopsia, none, none, none⟩).2.1
    ∧ (simulateBytes fn0 ⟨jq 9, jq 18, jq 27⟩ ⟨.achromatopsia, none, none, none⟩).2.1
      = (simulateBytes fn0 ⟨jq 9, jq 18, jq 27⟩ ⟨.achromatopsia, none, none, none⟩).2.2 :=
  c4_achromatic_gray_amended fn0 ⟨jq 9, jq 18, jq 27⟩ .achromatopsia none none none
    (Or.inl rfl) rfl

end CB

namespace CB

/-! ## C3: no special case for the parallel-line degeneracy -/

lemma configKeyFor_protanopia : configKeyFor (typeValue .protanopia) = ConfigKey.protan := by
  decide

/-- C3 (code-bug evidence): at the concrete input `c3rgb` the confusion-line
slope `s` equals the protan color-axis slope `m` exactly, yet the code does
not special-case the parallel-line degeneracy: the division by `s - m = 0`
produces non-finite values, every channel collapses to NaN, the final clamp
maps them to 0 and `simulate` returns black, not the source unchanged
(the source formats as `#000600`). -/
theorem c3_no_special_case (fn : ℚ → ℚ → ℚ) :
    parseColorInput c3FailInput = .ok c3rgb
    ∧ confusionSlope (convertXyzToXyy (convertRgbToXyz fn c3rgb .sRGB 2.2))
        (blindnessConfig .protan) = jq (blindnessConfig .protan).m
    ∧ simulate fn c3FailInput ⟨.protanopia, none, none, none⟩ = .ok "#000000"
    ∧ rgbToHex c3rgb = "#000600" := by
  refine ⟨rfl, ?_, ?_, ?_⟩
  · norm_num +decide [confusionSlope, convertXyzToXyy, convertRgbToXyz, blindnessConfig,
      c3rgb, c3FailB, c3coeff, mEl, RGB_TO_XYZ, jq, add_def, sub_def, mul_def, div_def,
      jsAdd, jsSub, jsNeg, jsMul, jsDiv, jsGt, jsLt, liftPow]
  · norm_num +decide [simulate, parseColorInput, simulateClamped, simulatePre,
      simulateDichromacy, simulateAchromatopsia, configKeyFor_protanopia,
      convertRgbToXyz, convertXyzToXyy, convertXyzToRgb, convertLinearRgbToXyz,
      gammaEncode, gamutMap, simulatedXyzOf, confusionSlope, liftPow, oddInt,
      blindnessConfig, fullProfile, fullGamma, c3FailInput, c3rgb, c3FailB, c3coeff,
      mEl, RGB_TO_XYZ, XYZ_TO_RGB, jq, add_def, sub_def, mul_def, div_def, neg_def,
      jsAdd, jsSub, jsNeg, jsMul, jsDiv, jsGt, jsGe, jsLt, jsLe, jsMin, jsMax,
      jsRound, jsRoundQ, jsOr0, clampCh, byteOfChannel, rgbToHex, toHexChars,
      numToHexChars, jsToUpper, Nat.toDigits, Nat.toDigitsCore, Int.toNat]
  · norm_num +decide [rgbToHex, toHexChars, numToHexChars, byteOfChannel, clampCh,
      jsOr0, jsMin, jsMax, jsRound, jsRoundQ, c3rgb, c3FailB, c3coeff, mEl, RGB_TO_XYZ,
      jq, add_def, sub_def, mul_def, div_def, jsAdd, jsSub, jsNeg, jsMul, jsDiv,
      jsToUpper, Nat.toDigits, Nat.toDigitsCore, Int.toNat]

end CB

namespace CB

/-! ## C1 and C8: totality, range closure and hex well-formedness -/

/-- C1: for every RGB input with channels in [0,255], every one of the 8
kinds and any anomalize/colorProfile/gammaCorrection options, `simulate`
succeeds, and the channels its output encodes are integers in [0,255]. -/
theorem c1_simulate_range (fn : ℚ → ℚ → ℚ) (qR qG qB : ℚ)
    (t : ColorBlindnessType) (anml : Option Bool)
    (prof : Option ColorProfile) (gam : Option ℚ)
    (_hR0 : 0 ≤ qR) (_hR1 : qR ≤ 255) (_hG0 : 0 ≤ qG) (_hG1 : qG ≤ 255)
    (_hB0 : 0 ≤ qB) (_hB1 : qB ≤ 255) (_hgam : 0 < gam.getD (2.2 : ℚ)) :
    (simulate fn (.obj ⟨jq qR, jq qG, jq qB⟩) ⟨t, anml, prof, gam⟩).isOk = true
    ∧ ∃ kR kG kB : ℤ,
        simulateBytes fn ⟨jq qR, jq qG, jq qB⟩ ⟨t, anml, prof, gam⟩
          = (.fin (kR : ℚ), .fin (kG : ℚ), .fin (kB : ℚ))
        ∧ 0 ≤ kR ∧ kR ≤ 255 ∧ 0 ≤ kG ∧ kG ≤ 255 ∧ 0 ≤ kB ∧ kB ≤ 255 :=
  ⟨rfl, simulateBytes_shape fn _ _⟩

/-- C1 witness: the range property at pure black under protanopia. -/
theorem c1_simulate_range_w :
    (simulate fn0 (.obj ⟨jq 0, jq 0, jq 0⟩) ⟨.protanopia, none, none, none⟩).isOk = true
    ∧ ∃ kR kG kB : ℤ,
        simulateBytes fn0 ⟨jq 0, jq 0, jq 0⟩ ⟨.protanopia, none, none, none⟩
          = (.fin (kR : ℚ), .fin (kG : ℚ), .fin (kB : ℚ))
        ∧ 0 ≤ kR ∧ kR ≤ 255 ∧ 0 ≤ kG ∧ kG ≤ 255 ∧ 0 ≤ kB ∧ kB ≤ 255 :=
  c1_simulate_range fn0 0 0 0 .protanopia none none none
    (by norm_num) (by norm_num) (by norm_num) (by norm_num) (by norm_num) (by norm_num)
    (by norm_num)

lemma hexPairN_ok : ∀ m : Fin 256,
    ((hexPairN m.val).map jsToUpper).length = 2
    ∧ ∀ c ∈ (hexPairN m.val).map jsToUpper, c ∈ upperHexDigits := by
  decide

lemma toHexChars_int (x : JSNum) (k : ℤ) (h : byteOfChannel x = .fin (k : ℚ))
    (_h0 : 0 ≤ k) : toHexChars x = hexPairN k.toNat := by
  simp only [toHexChars, numToHexChars, h, hexPairN, Rat.num_intCast]

/-- The hex string rendered for a color whose rounded channels are bytes. -/
lemma rgbToHex_wellformed (c : RGBColor) (kR kG kB : ℤ)
    (hR : byteOfChannel c.R = .fin (kR : ℚ)) (hR0 : 0 ≤ kR) (hR1 : kR ≤ 255)
    (hG : byteOfChannel c.G = .fin (kG : ℚ)) (hG0 : 0 ≤ kG) (hG1 : kG ≤ 255)
    (hB : byteOfChannel c.B = .fin (kB : ℚ)) (hB0 : 0 ≤ kB) (hB1 : kB ≤ 255) :
    (rgbToHex c).data.length = 7
    ∧ (rgbToHex c).data.headD ' ' = '#'
    ∧ (∀ ch ∈ (rgbToHex c).data.tail, ch ∈ upperHexDigits)
    ∧ 'N' ∉ (rgbToHex c).data := by
  have eR := toHexChars_int c.R kR hR hR0
  have eG := toHexChars_int c.G kG hG hG0
  have eB := toHexChars_int c.B kB hB hB0
  have mR : kR.toNat < 256 := by omega
  have mG : kG.toNat < 256 := by omega
  have mB : kB.toNat < 256 := by omega
  obtain ⟨lR, aR⟩ := hexPairN_ok ⟨kR.toNat, mR⟩
  obtain ⟨lG, aG⟩ := hexPairN_ok ⟨kG.toNat, mG⟩
  obtain ⟨lB, aB⟩ := hexPairN_ok ⟨kB.toNat, mB⟩
  have hdata : (rgbToHex c).data
      = '#' :: ((hexPairN kR.toNat).map jsToUpper ++ (hexPairN kG.toNat).map jsToUpper
          ++ (hexPairN kB.toNat).map jsToUpper) := by
    simp [rgbToHex, eR, eG, eB, jsToUpper]
  refine ⟨?_, ?_, ?_, ?_⟩
  · simp [hdata, lR, lG, lB]
  · simp [hdata]
  · intro ch hch
    simp only [hdata, List.tail_cons, List.mem_append] at hch
    rcases hch with (hch | hch) | hch
    · exact aR ch hch
    · exact aG ch hch
    · exact aB ch hch
  · intro hN
    simp only [hdata, List.mem_cons, List.mem_append] at hN
    rcases hN with hN | (hN | hN) | hN
    · exact absurd hN (by decide)
    · have := aR 'N' hN
      exact absurd this (by decide)
    · have := aG 'N' hN
      exact absurd this (by decide)
    · have := aB 'N' hN
      exact absurd this (by decide)

/-- C8: whenever `simulate` returns a string (however degenerate the
arithmetic, NaN channels included), that string is a 7-character `#`-prefixed
uppercase-hex color and contains no `N` (so never the text "NaN"). -/
theorem c8_output_wellformed (fn : ℚ → ℚ → ℚ) (input : ColorInput)
    (opts : SimulationOptions) (s : String)
    (h : simulate fn input opts = .ok s) :
    s.data.length = 7
    ∧ s.data.headD ' ' = '#'
    ∧ (∀ ch ∈ s.data.tail, ch ∈ upperHexDigits)
    ∧ 'N' ∉ s.data := by
  rcases hp : parseColorInput input with e | rgb
  · rw [simulate, hp] at h
    exact absurd h (by simp)
  · rw [simulate, hp] at h
    have hs : s = rgbToHex (simulateClamped fn rgb opts) := by
      injection h with h'
      exact h'.symm
    obtain ⟨kR, hR, hR0, hR1⟩ := byte_clamp_shape (simulatePre fn rgb opts).R
    obtain ⟨kG, hG, hG0, hG1⟩ := byte_clamp_shape (simulatePre fn rgb opts).G
    obtain ⟨kB, hB, hB0, hB1⟩ := byte_clamp_shape (simulatePre fn rgb opts).B
    rw [hs]
    exact rgbToHex_wellformed (simulateClamped fn rgb opts) kR kG kB
      hR hR0 hR1 hG hG0 hG1 hB hB0 hB1

/-- C8 witness: the well-formedness at a concrete run (black, protanopia). -/
theorem c8_output_wellformed_w :
    "#000000".data.length = 7
    ∧ "#000000".data.headD ' ' = '#'
    ∧ (∀ ch ∈ "#000000".data.tail, ch ∈ upperHexDigits)
    ∧ 'N' ∉ "#000000".data :=
  c8_output_wellformed fn0 (.obj ⟨jq 0, jq 0, jq 0⟩) ⟨.protanopia, none, none, none⟩ "#000000"
    (by norm_num +decide [simulate, parseColorInput, simulateClamped, simulatePre,
      simulateDichromacy, simulateAchromatopsia, configKeyFor_protanopia,
      convertRgbToXyz, convertXyzToXyy, convertXyzToRgb, convertLinearRgbToXyz,
      gammaEncode, gamutMap, simulatedXyzOf, confusionSlope, liftPow, oddInt,
      blindnessConfig, fullProfile, fullGamma,
      mEl, RGB_TO_XYZ, XYZ_TO_RGB, jq, add_def, sub_def, mul_def, div_def, neg_def,
      jsAdd, jsSub, jsNeg, jsMul, jsDiv, jsGt, jsGe, jsLt, jsLe, jsMin, jsMax,
      jsRound, jsRoundQ, jsOr0, clampCh, byteOfChannel, rgbToHex, toHexChars,
      numToHexChars, jsToUpper, Nat.toDigits, Nat.toDigitsCore, Int.toNat])

end CB

namespace CB

/-! ## C5: the anomalous blend never moves the output farther away -/

lemma toQ_jq (q : ℚ) : toQ (jq q) = q := rfl

/-- Core rounding arithmetic: blending an integer channel `k` toward an
integer original `o ∈ [0,255]` with weight 7/11, clamping and rounding,
lands at least as close to `o` as the clamped `k` itself. -/
lemma roundBlend_abs_le (k o : ℤ) (ho0 : 0 ≤ o) (ho1 : o ≤ 255) :
    |jsRoundQ (max 0 (min 255 ((7 * (k : ℚ) + 4 * o) / 11))) - o|
      ≤ |max 0 (min 255 k) - o| := by
  have hoQ0 : (0 : ℚ) ≤ (o : ℚ) := by exact_mod_cast ho0
  have hoQ1 : (o : ℚ) ≤ 255 := by exact_mod_cast ho1
  rcases le_or_lt o k with hko | hko
  · have hkoQ : (o : ℚ) ≤ (k : ℚ) := by exact_mod_cast hko
    have hvlo : (o : ℚ) ≤ (7 * (k : ℚ) + 4 * o) / 11 := by
      rw [le_div_iff₀ (by norm_num : (0 : ℚ) < 11)]; linarith
    rcases le_or_lt k 255 with hk1 | hk1
    · have hk1Q : (k : ℚ) ≤ 255 := by exact_mod_cast hk1
      have hvhi : (7 * (k : ℚ) + 4 * o) / 11 ≤ (k : ℚ) := by
        rw [div_le_iff₀ (by norm_num : (0 : ℚ) < 11)]; linarith
      have h0k : (0 : ℤ) ≤ k := le_trans ho0 hko
      have hFk : max 0 (min 255 k) = k := by
        rw [min_eq_right hk1, max_eq_right h0k]
      have hcol : max (0 : ℚ) (min 255 ((7 * (k : ℚ) + 4 * o) / 11))
          = (7 * (k : ℚ) + 4 * o) / 11 := by
        rw [min_eq_right (le_trans hvhi hk1Q), max_eq_right (le_trans hoQ0 hvlo)]
      rw [hFk, hcol]
      have hlo : o ≤ jsRoundQ ((7 * (k : ℚ) + 4 * o) / 11) :=
        le_jsRoundQ _ _ (by linarith)
      have hhi : jsRoundQ ((7 * (k : ℚ) + 4 * o) / 11) ≤ k :=
        jsRoundQ_le _ _ (by linarith)
      rw [abs_of_nonneg (sub_nonneg.mpr hlo), abs_of_nonneg (sub_nonneg.mpr hko)]
      omega
    · have hF : max 0 (min 255 k) = 255 := by
        rw [min_eq_left (by omega : (255 : ℤ) ≤ k), max_eq_right (by norm_num : (0 : ℤ) ≤ 255)]
      have hv1 : max (0 : ℚ) (min 255 ((7 * (k : ℚ) + 4 * o) / 11)) ≤ 255 :=
        max_le (by norm_num) (min_le_left _ _)
      have hv2 : (o : ℚ) ≤ max (0 : ℚ) (min 255 ((7 * (k : ℚ) + 4 * o) / 11)) :=
        le_trans (le_min hoQ1 hvlo) (le_max_right _ _)
      have hlo : o ≤ jsRoundQ (max (0 : ℚ) (min 255 ((7 * (k : ℚ) + 4 * o) / 11))) :=
        le_jsRoundQ _ _ (by linarith)
      have hhi : jsRoundQ (max (0 : ℚ) (min 255 ((7 * (k : ℚ) + 4 * o) / 11))) ≤ 255 :=
        jsRoundQ_le _ _ (by linarith)
      rw [hF, abs_of_nonneg (sub_nonneg.mpr hlo),
        abs_of_nonneg (sub_nonneg.mpr (by omega : o ≤ (255 : ℤ)))]
      omega
  · have hkoQ : (k : ℚ) ≤ (o : ℚ) := by exact_mod_cast le_of_lt hko
    have hvhi : (7 * (k : ℚ) + 4 * o) / 11 ≤ (o : ℚ) := by
      rw [div_le_iff₀ (by norm_num : (0 : ℚ) < 11)]; linarith
    rcases le_or_lt 0 k with hk0 | hk0
    · have hk0Q : (0 : ℚ) ≤ (k : ℚ) := by exact_mod_cast hk0
      have hvlo : (k : ℚ) ≤ (7 * (k : ℚ) + 4 * o) / 11 := by
        rw [le_div_iff₀ (by norm_num : (0 : ℚ) < 11)]; linarith
      have hF : max 0 (min 255 k) = k := by
        rw [min_eq_right (by omega : k ≤ (255 : ℤ)), max_eq_right hk0]
      have hcol : max (0 : ℚ) (min 255 ((7 * (k : ℚ) + 4 * o) / 11))
          = (7 * (k : ℚ) + 4 * o) / 11 := by
        rw [min_eq_right (le_trans hvhi hoQ1), max_eq_right (le_trans hk0Q hvlo)]
      rw [hF, hcol]
      have hlo : k ≤ jsRoundQ ((7 * (k : ℚ) + 4 * o) / 11) :=
        le_jsRoundQ _ _ (by linarith)
      have hhi : jsRoundQ ((7 * (k : ℚ) + 4 * o) / 11) ≤ o :=
        jsRoundQ_le _ _ (by linarith)
      rw [abs_of_nonpos (sub_nonpos.mpr hhi), abs_of_nonpos (sub_nonpos.mpr (le_of_lt hko))]
      omega
    · have hF : max 0 (min 255 k) = 0 := by
        rw [min_eq_right (by omega : k ≤ (255 : ℤ)), max_eq_left (by omega : k ≤ (0 : ℤ))]
      have h1 : max (0 : ℚ) (min 255 ((7 * (k : ℚ) + 4 * o) / 11)) ≤ (o : ℚ) :=
        max_le hoQ0 (le_trans (min_le_right _ _) hvhi)
      have h2 : (0 : ℚ) ≤ max (0 : ℚ) (min 255 ((7 * (k : ℚ) + 4 * o) / 11)) :=
        le_max_left _ _
      have hlo : (0 : ℤ) ≤ jsRoundQ (max (0 : ℚ) (min 255 ((7 * (k : ℚ) + 4 * o) / 11))) :=
        le_jsRoundQ _ _ (by push_cast; linarith)
      have hhi : jsRoundQ (max (0 : ℚ) (min 255 ((7 * (k : ℚ) + 4 * o) / 11))) ≤ o :=
        jsRoundQ_le _ _ (by linarith)
      rw [hF, abs_of_nonpos (sub_nonpos.mpr hhi),
        abs_of_nonpos (by omega : (0 : ℤ) - o ≤ 0)]
      omega

end CB

namespace CB

lemma byte_clamp_nan : byteOfChannel (clampCh .nan) = .fin ((0 : ℤ) : ℚ) := by
  have h : clampCh .nan = .fin 0 := by decide
  rw [h, byteOfChannel_fin 0 le_rfl (by norm_num)]
  rw [show (0 : ℚ) = ((0 : ℤ) : ℚ) by norm_num, jsRoundQ_intCast]

/-- Per-channel comparison for the dichromatic anomalous blend: for a
simulated channel that is NaN or an integer, the blended-then-clamped byte
is at least as close to the original integer channel as the directly
clamped byte. -/
lemma channel_pair (x : JSNum) (o : ℤ) (ho0 : 0 ≤ o) (ho1 : o ≤ 255)
    (hx : x = .nan ∨ ∃ k : ℤ, x = .fin (k : ℚ)) :
    |toQ (byteOfChannel (clampCh ((jq 1.75 * x + jq (o : ℚ)) / jq 2.75))) - (o : ℚ)|
      ≤ |toQ (byteOfChannel (clampCh x)) - (o : ℚ)| := by
  rcases hx with h | ⟨k, h⟩ <;> subst h
  · have hblend : (jq 1.75 * JSNum.nan + jq (o : ℚ)) / jq 2.75 = JSNum.nan := rfl
    rw [hblend, byte_clamp_nan]
  · have hblend : (jq 1.75 * JSNum.fin (k : ℚ) + jq (o : ℚ)) / jq 2.75
        = .fin ((7 * (k : ℚ) + 4 * o) / 11) := by
      have h275 : ¬((2.75 : ℚ) = 0) := by norm_num
      simp only [jq, mul_def, add_def, div_def, jsMul, jsAdd, jsDiv, if_neg h275]
      congr 1
      rw [div_eq_div_iff (by norm_num : (2.75 : ℚ) ≠ 0) (by norm_num : (11 : ℚ) ≠ 0)]
      ring
    rw [hblend, clampCh_fin, clampCh_fin]
    have hb0 : (0 : ℚ) ≤ max 0 (min 255 ((7 * (k : ℚ) + 4 * o) / 11)) := le_max_left _ _
    have hb1 : max (0 : ℚ) (min 255 ((7 * (k : ℚ) + 4 * o) / 11)) ≤ 255 :=
      max_le (by norm_num) (min_le_left _ _)
    have hk0 : (0 : ℚ) ≤ max 0 (min 255 (k : ℚ)) := le_max_left _ _
    have hk1 : max (0 : ℚ) (min 255 (k : ℚ)) ≤ 255 :=
      max_le (by norm_num) (min_le_left _ _)
    rw [byteOfChannel_fin _ hb0 hb1, byteOfChannel_fin _ hk0 hk1]
    simp only [toQ]
    have hcast : max (0 : ℚ) (min 255 (k : ℚ)) = ((max 0 (min 255 k) : ℤ) : ℚ) := by
      push_cast
      rfl
    rw [hcast, jsRoundQ_intCast]
    exact_mod_cast roundBlend_abs_le k o ho0 ho1

end CB

namespace CB

/-- The inverse gamma correction never produces an infinity: its value is
NaN or finite (the [0,1] clamp handles the infinite inputs). -/
lemma gammaEncode_shape (fn : ℚ → ℚ → ℚ) (v : JSNum) (profile : ColorProfile) (gamma : ℚ) :
    gammaEncode fn v profile gamma = .nan
    ∨ ∃ q : ℚ, gammaEncode fn v profile gamma = .fin q := by
  have h24 : ¬((1 / 2.4 : ℚ) = 0) := by norm_num
  cases v with
  | inf =>
      right
      exact ⟨1, by norm_num [gammaEncode, jsLe, jsGe, jq]⟩
  | ninf =>
      right
      exact ⟨0, by norm_num [gammaEncode, jsLe, jq]⟩
  | nan =>
      cases profile with
      | sRGB =>
          left
          norm_num [gammaEncode, jsLe, jsGe, jq, liftPow, h24, mul_def, sub_def,
            jsMul, jsSub, jsNeg, jsAdd]
      | generic =>
          left
          by_cases hg : gamma = 0
          · norm_num [gammaEncode, jsLe, jsGe, jq, liftPow, div_def, jsDiv, hg,
              mul_def, sub_def, jsMul, jsSub, jsNeg, jsAdd]
          · have hinv : ¬((1 / gamma : ℚ) = 0) := one_div_ne_zero hg
            norm_num [gammaEncode, jsLe, jsGe, jq, liftPow, div_def, jsDiv, hg, hinv,
              mul_def, sub_def, jsMul, jsSub, jsNeg, jsAdd]
  | fin q =>
      by_cases h0 : q ≤ 0
      · right
        exact ⟨0, by norm_num [gammaEncode, jsLe, jq, h0]⟩
      · have hq : 0 < q := lt_of_not_le h0
        by_cases h1 : 1 ≤ q
        · right
          exact ⟨1, by norm_num [gammaEncode, jsLe, jsGe, jq, h0, h1]⟩
        · have hq1 : q < 1 := lt_of_not_le h1
          cases profile with
          | sRGB =>
              by_cases h2 : q ≤ 0.0031308
              · right
                refine ⟨12.92 * q, ?_⟩
                norm_num at h2
                norm_num [gammaEncode, jsLe, jsGe, jq, h0, h1, h2, mul_def, jsMul]
              · right
                refine ⟨1.055 * fn q (1 / 2.4) - 0.055, ?_⟩
                norm_num at h2
                norm_num [gammaEncode, jsLe, jsGe, jq, h0, h1, h2, liftPow, h24,
                  hq, hq.ne', mul_def, sub_def, jsMul, jsSub, jsNeg, jsAdd]
                rw [if_neg (not_le.mpr h2)]
                congr 1
                ring
          | generic =>
              by_cases hg : gamma = 0
              · right
                refine ⟨0, ?_⟩
                have hne : ¬(q = 1 ∨ q = -1) := by
                  rintro (rfl | rfl) <;> linarith
                have habs : ¬(1 < |q|) := by
                  rw [abs_of_pos hq]; linarith
                norm_num [gammaEncode, jsLe, jsGe, jq, h0, h1, liftPow, div_def,
                  jsDiv, hg, hne, habs]
              · right
                refine ⟨fn q (1 / gamma), ?_⟩
                have hinv : ¬((1 / gamma : ℚ) = 0) := one_div_ne_zero hg
                norm_num [gammaEncode, jsLe, jsGe, jq, h0, h1, liftPow, div_def,
                  jsDiv, hg, hinv, hq, hq.ne']

lemma round_scale_shape (x : JSNum) (hx : x = .nan ∨ ∃ q : ℚ, x = .fin q) :
    jsRound (x * jq 255) = .nan ∨ ∃ k : ℤ, jsRound (x * jq 255) = .fin ((k : ℤ) : ℚ) := by
  rcases hx with h | ⟨q, h⟩ <;> subst h
  · left
    rfl
  · right
    exact ⟨jsRoundQ (q * 255), by simp [mul_def, jsMul, jq, jsRound]⟩

/-- Every channel `convertXyzToRgb` returns is NaN or an integer. -/
lemma convertXyzToRgb_shape (fn : ℚ → ℚ → ℚ) (xyz : XYZColor)
    (profile : ColorProfile) (gamma : ℚ) :
    ((convertXyzToRgb fn xyz profile gamma).R = .nan
      ∨ ∃ k : ℤ, (convertXyzToRgb fn xyz profile gamma).R = .fin ((k : ℤ) : ℚ))
    ∧ ((convertXyzToRgb fn xyz profile gamma).G = .nan
      ∨ ∃ k : ℤ, (convertXyzToRgb fn xyz profile gamma).G = .fin ((k : ℤ) : ℚ))
    ∧ ((convertXyzToRgb fn xyz profile gamma).B = .nan
      ∨ ∃ k : ℤ, (convertXyzToRgb fn xyz profile gamma).B = .fin ((k : ℤ) : ℚ)) :=
  ⟨round_scale_shape _ (gammaEncode_shape fn _ profile gamma),
   round_scale_shape _ (gammaEncode_shape fn _ profile gamma),
   round_scale_shape _ (gammaEncode_shape fn _ profile gamma)⟩

/-- Every channel `simulateDichromacy` returns is NaN or an integer. -/
lemma simulateDichromacy_shape (fn : ℚ → ℚ → ℚ) (rgb : RGBColor)
    (cfg : BlindnessConfiguration) (profile : ColorProfile) (gamma : ℚ) :
    ((simulateDichromacy fn rgb cfg profile gamma).R = .nan
      ∨ ∃ k : ℤ, (simulateDichromacy fn rgb cfg profile gamma).R = .fin ((k : ℤ) : ℚ))
    ∧ ((simulateDichromacy fn rgb cfg profile gamma).G = .nan
      ∨ ∃ k : ℤ, (simulateDichromacy fn rgb cfg profile gamma).G = .fin ((k : ℤ) : ℚ))
    ∧ ((simulateDichromacy fn rgb cfg profile gamma).B = .nan
      ∨ ∃ k : ℤ, (simulateDichromacy fn rgb cfg profile gamma).B = .fin ((k : ℤ) : ℚ)) :=
  convertXyzToRgb_shape fn _ profile gamma

end CB

namespace CB

lemma sq_mono_abs {a b : ℚ} (h : |a| ≤ |b|) : a ^ 2 ≤ b ^ 2 := by
  have h2 := pow_le_pow_left₀ (abs_nonneg a) h 2
  rwa [sq_abs, sq_abs] at h2

/-- Per-channel comparison for the achromatic blend (which rounds inside
`simulateAchromatopsia` before the final clamping). -/
lemma achro_channel (w o : ℤ) (hw0 : 0 ≤ w) (hw1 : w ≤ 255) (ho0 : 0 ≤ o) (ho1 : o ≤ 255) :
    |toQ (byteOfChannel (clampCh (jsRound
        ((jq 1.75 * JSNum.fin ((w : ℤ) : ℚ) + jq ((o : ℤ) : ℚ)) / jq 2.75)))) - ((o : ℤ) : ℚ)|
      ≤ |toQ (byteOfChannel (clampCh (JSNum.fin ((w : ℤ) : ℚ)))) - ((o : ℤ) : ℚ)| := by
  have hwQ0 : (0 : ℚ) ≤ (w : ℚ) := by exact_mod_cast hw0
  have hwQ1 : (w : ℚ) ≤ 255 := by exact_mod_cast hw1
  have hoQ0 : (0 : ℚ) ≤ (o : ℚ) := by exact_mod_cast ho0
  have hoQ1 : (o : ℚ) ≤ 255 := by exact_mod_cast ho1
  have hblend : (jq 1.75 * JSNum.fin ((w : ℤ) : ℚ) + jq ((o : ℤ) : ℚ)) / jq 2.75
      = .fin ((7 * (w : ℚ) + 4 * o) / 11) := by
    have h275 : ¬((2.75 : ℚ) = 0) := by norm_num
    simp only [jq, mul_def, add_def, div_def, jsMul, jsAdd, jsDiv, if_neg h275]
    congr 1
    rw [div_eq_div_iff (by norm_num : (2.75 : ℚ) ≠ 0) (by norm_num : (11 : ℚ) ≠ 0)]
    ring
  have hv0 : (0 : ℚ) ≤ (7 * (w : ℚ) + 4 * o) / 11 := by
    apply div_nonneg (by linarith) (by norm_num)
  have hv255 : (7 * (w : ℚ) + 4 * o) / 11 ≤ 255 := by
    rw [div_le_iff₀ (by norm_num : (0 : ℚ) < 11)]
    linarith
  have hA0 : 0 ≤ jsRoundQ ((7 * (w : ℚ) + 4 * o) / 11) :=
    le_jsRoundQ _ _ (by push_cast; linarith)
  have hA1 : jsRoundQ ((7 * (w : ℚ) + 4 * o) / 11) ≤ 255 :=
    jsRoundQ_le _ _ (by linarith)
  have hAQ0 : (0 : ℚ) ≤ ((jsRoundQ ((7 * (w : ℚ) + 4 * o) / 11) : ℤ) : ℚ) := by
    exact_mod_cast hA0
  have hAQ1 : ((jsRoundQ ((7 * (w : ℚ) + 4 * o) / 11) : ℤ) : ℚ) ≤ 255 := by
    exact_mod_cast hA1
  have hjsr : jsRound (JSNum.fin ((7 * (w : ℚ) + 4 * o) / 11))
      = JSNum.fin ((jsRoundQ ((7 * (w : ℚ) + 4 * o) / 11) : ℤ) : ℚ) := rfl
  rw [hblend, hjsr, clampCh_fin, clampCh_fin,
    min_eq_right hAQ1, max_eq_right hAQ0, min_eq_right hwQ1, max_eq_right hwQ0,
    byteOfChannel_fin _ hAQ0 hAQ1, byteOfChannel_fin _ hwQ0 hwQ1]
  simp only [toQ]
  rw [jsRoundQ_intCast, jsRoundQ_intCast]
  have hcore := roundBlend_abs_le w o ho0 ho1
  rw [min_eq_right hv255, max_eq_right hv0,
    min_eq_right hw1, max_eq_right hw0] at hcore
  exact_mod_cast hcore

/-- The C5 comparison on the three dichromatic families. -/
lemma c5_dich (fn : ℚ → ℚ → ℚ) (r g b : ℤ)
    (hr0 : 0 ≤ r) (hr : r ≤ 255) (hg0 : 0 ≤ g) (hg : g ≤ 255) (hb0 : 0 ≤ b) (hb : b ≤ 255)
    (t1 t2 : ColorBlindnessType)
    (h1 : ¬(t1 = ColorBlindnessType.achromatopsia ∨ t1 = ColorBlindnessType.achromatomaly))
    (h2 : ¬(t2 = ColorBlindnessType.achromatopsia ∨ t2 = ColorBlindnessType.achromatomaly))
    (hcfg : configKeyFor (typeValue t2) = configKeyFor (typeValue t1))
    (prof : Option ColorProfile) (gam : Option ℚ) :
    dist2 (simulateBytes fn ⟨jq (r : ℚ), jq (g : ℚ), jq (b : ℚ)⟩ ⟨t2, some true, prof, gam⟩)
        ⟨jq (r : ℚ), jq (g : ℚ), jq (b : ℚ)⟩
      ≤ dist2 (simulateBytes fn ⟨jq (r : ℚ), jq (g : ℚ), jq (b : ℚ)⟩ ⟨t1, none, prof, gam⟩)
        ⟨jq (r : ℚ), jq (g : ℚ), jq (b : ℚ)⟩ := by
  have hpre1 : simulatePre fn ⟨jq (r : ℚ), jq (g : ℚ), jq (b : ℚ)⟩ ⟨t1, none, prof, gam⟩
      = simulateDichromacy fn ⟨jq (r : ℚ), jq (g : ℚ), jq (b : ℚ)⟩
          (blindnessConfig (configKeyFor (typeValue t1))) (prof.getD .sRGB) (gam.getD 2.2) := by
    simp only [simulatePre, fullProfile, fullGamma]
    rw [if_neg h1]
    simp
  have hpre2 : simulatePre fn ⟨jq (r : ℚ), jq (g : ℚ), jq (b : ℚ)⟩ ⟨t2, some true, prof, gam⟩
      = ⟨(jq 1.75 * (simulateDichromacy fn ⟨jq (r : ℚ), jq (g : ℚ), jq (b : ℚ)⟩
            (blindnessConfig (configKeyFor (typeValue t1))) (prof.getD .sRGB) (gam.getD 2.2)).R
          + jq (r : ℚ)) / jq 2.75,
         (jq 1.75 * (simulateDichromacy fn ⟨jq (r : ℚ), jq (g : ℚ), jq (b : ℚ)⟩
            (blindnessConfig (configKeyFor (typeValue t1))) (prof.getD .sRGB) (gam.getD 2.2)).G
          + jq (g : ℚ)) / jq 2.75,
         (jq 1.75 * (simulateDichromacy fn ⟨jq (r : ℚ), jq (g : ℚ), jq (b : ℚ)⟩
            (blindnessConfig (configKeyFor (typeValue t1))) (prof.getD .sRGB) (gam.getD 2.2)).B
          + jq (b : ℚ)) / jq 2.75⟩ := by
    simp only [simulatePre, fullProfile, fullGamma]
    rw [if_neg h2, hcfg]
    simp
  obtain ⟨sR, sG, sB⟩ := simulateDichromacy_shape fn ⟨jq (r : ℚ), jq (g : ℚ), jq (b : ℚ)⟩
    (blindnessConfig (configKeyFor (typeValue t1))) (prof.getD .sRGB) (gam.getD 2.2)
  simp only [simulateBytes, simulateClamped, hpre1, hpre2, dist2, toQ_jq]
  have cR := channel_pair _ r hr0 hr sR
  have cG := channel_pair _ g hg0 hg sG
  have cB := channel_pair _ b hb0 hb sB
  exact add_le_add (add_le_add (sq_mono_abs cR) (sq_mono_abs cG)) (sq_mono_abs cB)

end CB

namespace CB

/-- The C5 comparison on the achromatic family. -/
lemma c5_achro (fn : ℚ → ℚ → ℚ) (r g b : ℤ)
    (hr0 : 0 ≤ r) (hr : r ≤ 255) (hg0 : 0 ≤ g) (hg : g ≤ 255) (hb0 : 0 ≤ b) (hb : b ≤ 255)
    (prof : Option ColorProfile) (gam : Option ℚ) :
    dist2 (simulateBytes fn ⟨jq (r : ℚ), jq (g : ℚ), jq (b : ℚ)⟩
        ⟨.achromatomaly, some true, prof, gam⟩) ⟨jq (r : ℚ), jq (g : ℚ), jq (b : ℚ)⟩
      ≤ dist2 (simulateBytes fn ⟨jq (r : ℚ), jq (g : ℚ), jq (b : ℚ)⟩
        ⟨.achromatopsia, none, prof, gam⟩) ⟨jq (r : ℚ), jq (g : ℚ), jq (b : ℚ)⟩ := by
  have hrQ0 : (0 : ℚ) ≤ (r : ℚ) := by exact_mod_cast hr0
  have hrQ1 : (r : ℚ) ≤ 255 := by exact_mod_cast hr
  have hgQ0 : (0 : ℚ) ≤ (g : ℚ) := by exact_mod_cast hg0
  have hgQ1 : (g : ℚ) ≤ 255 := by exact_mod_cast hg
  have hbQ0 : (0 : ℚ) ≤ (b : ℚ) := by exact_mod_cast hb0
  have hbQ1 : (b : ℚ) ≤ 255 := by exact_mod_cast hb
  have hlum : jq (r : ℚ) * jq 0.212656 + jq (g : ℚ) * jq 0.715158 + jq (b : ℚ) * jq 0.072186
      = JSNum.fin ((r : ℚ) * 0.212656 + (g : ℚ) * 0.715158 + (b : ℚ) * 0.072186) := by
    simp [jq, mul_def, add_def, jsMul, jsAdd]
  have hL0 : (0 : ℚ) ≤ (r : ℚ) * 0.212656 + (g : ℚ) * 0.715158 + (b : ℚ) * 0.072186 := by
    have p1 : (0 : ℚ) ≤ (r : ℚ) * 0.212656 := mul_nonneg hrQ0 (by norm_num)
    have p2 : (0 : ℚ) ≤ (g : ℚ) * 0.715158 := mul_nonneg hgQ0 (by norm_num)
    have p3 : (0 : ℚ) ≤ (b : ℚ) * 0.072186 := mul_nonneg hbQ0 (by norm_num)
    linarith
  have hL1 : (r : ℚ) * 0.212656 + (g : ℚ) * 0.715158 + (b : ℚ) * 0.072186 ≤ 255 := by
    have p1 : (r : ℚ) * 0.212656 ≤ 255 * 0.212656 :=
      mul_le_mul_of_nonneg_right hrQ1 (by norm_num)
    have p2 : (g : ℚ) * 0.715158 ≤ 255 * 0.715158 :=
      mul_le_mul_of_nonneg_right hgQ1 (by norm_num)
    have p3 : (b : ℚ) * 0.072186 ≤ 255 * 0.072186 :=
      mul_le_mul_of_nonneg_right hbQ1 (by norm_num)
    have : (255 : ℚ) * 0.212656 + 255 * 0.715158 + 255 * 0.072186 = 255 := by norm_num
    linarith
  have hW0 : 0 ≤ jsRoundQ ((r : ℚ) * 0.212656 + (g : ℚ) * 0.715158 + (b : ℚ) * 0.072186) :=
    le_jsRoundQ _ _ (by push_cast; linarith)
  have hW1 : jsRoundQ ((r : ℚ) * 0.212656 + (g : ℚ) * 0.715158 + (b : ℚ) * 0.072186) ≤ 255 :=
    jsRoundQ_le _ _ (by linarith)
  have hgray : jsRound (jq (r : ℚ) * jq 0.212656 + jq (g : ℚ) * jq 0.715158 + jq (b : ℚ) * jq 0.072186)
      = JSNum.fin ((jsRoundQ ((r : ℚ) * 0.212656 + (g : ℚ) * 0.715158 + (b : ℚ) * 0.072186) : ℤ) : ℚ) := by
    rw [hlum]
    rfl
  have hpre1 : simulatePre fn ⟨jq (r : ℚ), jq (g : ℚ), jq (b : ℚ)⟩ ⟨.achromatopsia, none, prof, gam⟩
      = ⟨JSNum.fin ((jsRoundQ ((r : ℚ) * 0.212656 + (g : ℚ) * 0.715158 + (b : ℚ) * 0.072186) : ℤ) : ℚ),
         JSNum.fin ((jsRoundQ ((r : ℚ) * 0.212656 + (g : ℚ) * 0.715158 + (b : ℚ) * 0.072186) : ℤ) : ℚ),
         JSNum.fin ((jsRoundQ ((r : ℚ) * 0.212656 + (g : ℚ) * 0.715158 + (b : ℚ) * 0.072186) : ℤ) : ℚ)⟩ := by
    simp only [simulatePre, true_or, if_true, Option.getD_none]
    simp only [simulateAchromatopsia, Bool.false_eq_true, if_false, hgray]
  have hpre2 : simulatePre fn ⟨jq (r : ℚ), jq (g : ℚ), jq (b : ℚ)⟩ ⟨.achromatomaly, some true, prof, gam⟩
      = ⟨jsRound ((jq 1.75 * JSNum.fin ((jsRoundQ ((r : ℚ) * 0.212656 + (g : ℚ) * 0.715158 + (b : ℚ) * 0.072186) : ℤ) : ℚ)
            + jq ((r : ℤ) : ℚ)) / jq 2.75),
         jsRound ((jq 1.75 * JSNum.fin ((jsRoundQ ((r : ℚ) * 0.212656 + (g : ℚ) * 0.715158 + (b : ℚ) * 0.072186) : ℤ) : ℚ)
            + jq ((g : ℤ) : ℚ)) / jq 2.75),
         jsRound ((jq 1.75 * JSNum.fin ((jsRoundQ ((r : ℚ) * 0.212656 + (g : ℚ) * 0.715158 + (b : ℚ) * 0.072186) : ℤ) : ℚ)
            + jq ((b : ℤ) : ℚ)) / jq 2.75)⟩ := by
    simp only [simulatePre, or_true, if_true, Option.getD_some]
    simp only [simulateAchromatopsia, if_true, hgray]
  simp only [simulateBytes, simulateClamped, hpre1, hpre2, dist2, toQ_jq]
  have cR := achro_channel _ r hW0 hW1 hr0 hr
  have cG := achro_channel _ g hW0 hW1 hg0 hg
  have cB := achro_channel _ b hW0 hW1 hb0 hb
  exact add_le_add (add_le_add (sq_mono_abs cR) (sq_mono_abs cG)) (sq_mono_abs cB)

end CB

namespace CB

/-- C5 counterexample to strictness: for {100,100,101} the achromatopsia
output (100,100,100) differs from the original, yet the achromatomaly
output is not strictly closer — both are at squared distance 1. -/
theorem c5_strictness_cx :
    (simulateBytes fn0 ⟨jq 100, jq 100, jq 101⟩ ⟨.achromatopsia, none, none, none⟩
        ≠ (jq 100, jq 100, jq 101))
    ∧ ¬(dist2 (simulateBytes fn0 ⟨jq 100, jq 100, jq 101⟩ ⟨.achromatomaly, some true, none, none⟩)
          ⟨jq 100, jq 100, jq 101⟩
        < dist2 (simulateBytes fn0 ⟨jq 100, jq 100, jq 101⟩ ⟨.achromatopsia, none, none, none⟩)
          ⟨jq 100, jq 100, jq 101⟩) := by
  constructor
  · norm_num +decide [simulateBytes, simulateClamped, simulatePre, simulateAchromatopsia,
      byteOfChannel, clampCh, jsOr0, jsMin, jsMax, jsRound, jsRoundQ, jq,
      add_def, mul_def, div_def, jsAdd, jsMul, jsDiv]
  · norm_num +decide [simulateBytes, simulateClamped, simulatePre, simulateAchromatopsia,
      byteOfChannel, clampCh, jsOr0, jsMin, jsMax, jsRound, jsRoundQ, jq,
      add_def, mul_def, div_def, jsAdd, jsMul, jsDiv, dist2, toQ]

/-- C5 (amended): for every color with integer channels in [0,255] and every
deficiency family, the anomalous ("-omaly", anomalize set) output is at
least as close to the original in Euclidean RGB distance as the full
dichromatic ("-opia") output — but not always strictly closer, since the
final rounding can make the two outputs coincide while differing from the
original. -/
theorem c5_anomaly_not_farther (fn : ℚ → ℚ → ℚ) (fam : DeficiencyFamily) (r g b : ℤ)
    (hr0 : 0 ≤ r) (hr1 : r ≤ 255) (hg0 : 0 ≤ g) (hg1 : g ≤ 255)
    (hb0 : 0 ≤ b) (hb1 : b ≤ 255)
    (prof : Option ColorProfile) (gam : Option ℚ) :
    dist2 (simulateBytes fn ⟨jq (r : ℚ), jq (g : ℚ), jq (b : ℚ)⟩
        ⟨omalyKind fam, some true, prof, gam⟩) ⟨jq (r : ℚ), jq (g : ℚ), jq (b : ℚ)⟩
      ≤ dist2 (simulateBytes fn ⟨jq (r : ℚ), jq (g : ℚ), jq (b : ℚ)⟩
        ⟨opiaKind fam, none, prof, gam⟩) ⟨jq (r : ℚ), jq (g : ℚ), jq (b : ℚ)⟩ := by
  cases fam with
  | protan =>
      exact c5_dich fn r g b hr0 hr1 hg0 hg1 hb0 hb1 .protanopia .protanomaly
        (by decide) (by decide) (by decide) prof gam
  | deutan =>
      exact c5_dich fn r g b hr0 hr1 hg0 hg1 hb0 hb1 .deuteranopia .deuteranomaly
        (by decide) (by decide) (by decide) prof gam
  | tritan =>
      exact c5_dich fn r g b hr0 hr1 hg0 hg1 hb0 hb1 .tritanopia .tritanomaly
        (by decide) (by decide) (by decide) prof gam
  | achromat =>
      exact c5_achro fn r g b hr0 hr1 hg0 hg1 hb0 hb1 prof gam

/-- C5 witness: the amended comparison at pure red under the protan family. -/
theorem c5_anomaly_not_farther_w :
    dist2 (simulateBytes fn0 ⟨jq ((255 : ℤ) : ℚ), jq ((0 : ℤ) : ℚ), jq ((0 : ℤ) : ℚ)⟩
        ⟨omalyKind .protan, some true, none, none⟩)
        ⟨jq ((255 : ℤ) : ℚ), jq ((0 : ℤ) : ℚ), jq ((0 : ℤ) : ℚ)⟩
      ≤ dist2 (simulateBytes fn0 ⟨jq ((255 : ℤ) : ℚ), jq ((0 : ℤ) : ℚ), jq ((0 : ℤ) : ℚ)⟩
        ⟨opiaKind .protan, none, none, none⟩)
        ⟨jq ((255 : ℤ) : ℚ), jq ((0 : ℤ) : ℚ), jq ((0 : ℤ) : ℚ)⟩ :=
  c5_anomaly_not_farther fn0 .protan 255 0 0
    (by norm_num) (by norm_num) (by norm_num) (by norm_num) (by norm_num) (by norm_num)
    none none

end CB
